import Mathlib

/-!
Verification of the mobility_aggregator caching / freshness / failover core.

The definitions below are a shallow embedding of the Python sources:
  * `src/utils/cache.py`      — `SimpleCache` (LRU + TTL cache with statistics)
  * `src/providers/mensa.py`  — `MensaProvider._should_refresh_menu` (freshness gate)
  * `src/utils/api_checker.py`— `APIStateManager` / `check_and_update_apis` (failover)
  * `src/api/endpoints.py`    — the cache administration endpoints

Python dicts and `OrderedDict`s are modelled as association lists whose order
is the dict's iteration (insertion) order; wall-clock times are naturals
(seconds); Python floats arising in `get_stats` are modelled as exact
rationals with `round(x, 2)` modelled as round-half-to-even at two decimals.
-/

set_option autoImplicit false

namespace MobilityAgg

abbrev Key := String

/-! ### Association-list model of Python `dict` / `OrderedDict` -/

/-- `d[k]` as a partial lookup: value at the first occurrence of `k`. -/
def lookupA {α : Type} : List (Key × α) → Key → Option α
  | [], _ => none
  | (k, v) :: rest, k' => if k = k' then some v else lookupA rest k'

/-- `del d[k]`: drop the first occurrence of `k` (no-op when absent; the
Python `del` raises `KeyError` then, which never happens at the call sites
by the key-set invariant proved below). -/
def eraseA {α : Type} : List (Key × α) → Key → List (Key × α)
  | [], _ => []
  | (k, v) :: rest, k' => if k = k' then rest else (k, v) :: eraseA rest k'

/-- `d[k] = v`: replace the value at an existing key in place (keeping its
position, as CPython dicts do), else append the new pair at the end. -/
def setA {α : Type} : List (Key × α) → Key → α → List (Key × α)
  | [], k', v' => [(k', v')]
  | (k, v) :: rest, k', v' =>
      if k = k' then (k', v') :: rest else (k, v) :: setA rest k' v'

/-- `OrderedDict.move_to_end(k)`: move the entry for `k` to the last
position. Python raises `KeyError` when `k` is absent; at the call sites the
key is always present, and we keep the list unchanged in that case. -/
def moveToEnd {α : Type} (l : List (Key × α)) (k : Key) : List (Key × α) :=
  match lookupA l k with
  | none => l
  | some v => eraseA l k ++ [(k, v)]

/-! ### `SimpleCache` (src/utils/cache.py) -/

/-- State of `SimpleCache`: `_cache` is an `OrderedDict` (front = oldest in
iteration order, back = most recently used), `_timestamps` a plain dict. -/
structure SimpleCache (α : Type) where
  cache : List (Key × α)
  timestamps : List (Key × Nat)
  max_size : Nat
  ttl : Nat
  hits : Nat
  misses : Nat
  evictions : Nat

/-- `SimpleCache.__init__(max_size, ttl)`. -/
def SimpleCache.init (α : Type) (max_size ttl : Nat) : SimpleCache α :=
  { cache := [], timestamps := [], max_size := max_size, ttl := ttl,
    hits := 0, misses := 0, evictions := 0 }

/-- `SimpleCache.get(key)` at wall-clock time `now`; returns the value (or
`none`) together with the successor state.  The timestamp read
`self._timestamps[key]` is a dict access that can only be reached with the
key present (key-set invariant below); `getD 0` stands for that total read. -/
def SimpleCache.get {α : Type} (c : SimpleCache α) (key : Key) (now : Nat) :
    Option α × SimpleCache α :=
  match lookupA c.cache key with
  | some v =>
      if now - (lookupA c.timestamps key).getD 0 < c.ttl then
        (some v, { c with cache := moveToEnd c.cache key, hits := c.hits + 1 })
      else
        (none, { c with cache := eraseA c.cache key,
                        timestamps := eraseA c.timestamps key,
                        evictions := c.evictions + 1,
                        misses := c.misses + 1 })
  | none => (none, { c with misses := c.misses + 1 })

/-- The `while len(self._cache) >= self.max_size:` loop of `set`: repeatedly
delete the first (oldest) entry from both maps, counting evictions.  (With
`max_size = 0` Python would raise `StopIteration` once the dict is empty;
every cache in the repository has `max_size ≥ 50`.) -/
def evictWhileFull {α : Type} (max_size : Nat) :
    List (Key × α) → List (Key × Nat) → Nat →
    List (Key × α) × List (Key × Nat) × Nat
  | [], ts, ev => ([], ts, ev)
  | (k, v) :: rest, ts, ev =>
      if rest.length + 1 ≥ max_size then
        evictWhileFull max_size rest (eraseA ts k) (ev + 1)
      else ((k, v) :: rest, ts, ev)

/-- `SimpleCache.set(key, value)` at wall-clock time `now`. -/
def SimpleCache.set {α : Type} (c : SimpleCache α) (key : Key) (value : α)
    (now : Nat) : SimpleCache α :=
  let r := evictWhileFull c.max_size c.cache c.timestamps c.evictions
  { c with cache := moveToEnd (setA r.1 key value) key,
           timestamps := setA r.2.1 key now,
           evictions := r.2.2 }

/-- `SimpleCache.delete(key)`. -/
def SimpleCache.delete {α : Type} (c : SimpleCache α) (key : Key) :
    Bool × SimpleCache α :=
  match lookupA c.cache key with
  | some _ => (true, { c with cache := eraseA c.cache key,
                              timestamps := eraseA c.timestamps key })
  | none => (false, c)

/-- `SimpleCache.clear()`. -/
def SimpleCache.clear {α : Type} (c : SimpleCache α) : SimpleCache α :=
  { c with cache := [], timestamps := [], hits := 0, misses := 0, evictions := 0 }

/-- `SimpleCache.cleanup_expired()` at time `now`: the expired keys in
`_timestamps` iteration order, then both deletions per key. -/
def SimpleCache.cleanup_expired {α : Type} (c : SimpleCache α) (now : Nat) :
    Nat × SimpleCache α :=
  let expired := (c.timestamps.filter (fun p => c.ttl ≤ now - p.2)).map Prod.fst
  (expired.length,
   { c with cache := expired.foldl eraseA c.cache,
            timestamps := expired.foldl eraseA c.timestamps,
            evictions := c.evictions + expired.length })

/-- Python's `round` (half-to-even) on an exact rational. -/
def pyRoundInt (q : ℚ) : ℤ :=
  if q - ⌊q⌋ = 1 / 2 then (if ⌊q⌋ % 2 = 0 then ⌊q⌋ else ⌊q⌋ + 1) else round q

/-- `round(q, 2)`. -/
def pyRound2 (q : ℚ) : ℚ := (pyRoundInt (q * 100) : ℚ) / 100

/-- Result shape of `get_stats` (the `sys.getsizeof` memory estimate is a
CPython implementation detail and is not part of the model). -/
structure Stats where
  size : Nat
  max_size : Nat
  hits : Nat
  misses : Nat
  evictions : Nat
  hit_rate_percent : ℚ
  ttl_seconds : Nat
  deriving DecidableEq, Repr

/-- `SimpleCache.get_stats()`. -/
def SimpleCache.get_stats {α : Type} (c : SimpleCache α) : Stats :=
  let total_requests := c.hits + c.misses
  let hit_rate : ℚ :=
    if total_requests > 0 then (c.hits : ℚ) / (total_requests : ℚ) * 100 else 0
  { size := c.cache.length, max_size := c.max_size, hits := c.hits,
    misses := c.misses, evictions := c.evictions,
    hit_rate_percent := pyRound2 hit_rate, ttl_seconds := c.ttl }

/-! ### Operation sequences over one cache instance -/

/-- One client operation on a `SimpleCache`, with its wall-clock time. -/
inductive Op (α : Type) where
  | get (key : Key) (now : Nat)
  | set (key : Key) (value : α) (now : Nat)
  | delete (key : Key)
  | clear
  | cleanup (now : Nat)

/-- State after one operation (return values discarded). -/
def applyOp {α : Type} (c : SimpleCache α) : Op α → SimpleCache α
  | .get key now => (c.get key now).2
  | .set key value now => c.set key value now
  | .delete key => (c.delete key).2
  | .clear => c.clear
  | .cleanup now => (c.cleanup_expired now).2

/-- State after a finite sequence of operations. -/
def applyOps {α : Type} (c : SimpleCache α) (ops : List (Op α)) : SimpleCache α :=
  ops.foldl applyOp c

/-! ### Calendar arithmetic (Python `datetime`), as used by
`MensaProvider._should_refresh_menu` in src/providers/mensa.py -/

/-- Gregorian leap year, as in CPython's `datetime._is_leap`. -/
def isLeap (y : Nat) : Bool := y % 4 = 0 && (y % 100 ≠ 0 || y % 400 = 0)

/-- Days in month `m` (1–12) of year `y`. -/
def daysInMonth (y m : Nat) : Nat :=
  if m = 2 then (if isLeap y then 29 else 28)
  else if m = 4 ∨ m = 6 ∨ m = 9 ∨ m = 11 then 30
  else 31

/-- Days in the years `[1, y)`, as in CPython's `_days_before_year`. -/
def daysBeforeYear (y : Nat) : Nat :=
  (y - 1) * 365 + (y - 1) / 4 - (y - 1) / 100 + (y - 1) / 400

/-- Days in year `y` strictly before month `m`, as in `_days_before_month`. -/
def daysBeforeMonth (y m : Nat) : Nat :=
  (List.range (m - 1)).foldl (fun acc i => acc + daysInMonth y (i + 1)) 0

/-- Proleptic-Gregorian ordinal (`datetime.toordinal`; 0001-01-01 ↦ 1). -/
def ymd2ord (y m d : Nat) : Nat := daysBeforeYear y + daysBeforeMonth y m + d

/-- A `datetime.datetime` value, at one-second resolution. -/
structure PyDateTime where
  year : Nat
  month : Nat
  day : Nat
  secondsOfDay : Nat
  deriving DecidableEq, Repr

/-- The ordinal of a datetime's date. -/
def PyDateTime.ord (t : PyDateTime) : Int := (ymd2ord t.year t.month t.day : Int)

/-- `(a - b).days` on datetimes: `timedelta` normalizes with floor on the
day count. -/
def tdeltaDays (a b : PyDateTime) : Int :=
  Int.fdiv ((a.ord - b.ord) * 86400 + ((a.secondsOfDay : Int) - (b.secondsOfDay : Int))) 86400

/-- Ordinal of the Monday starting ISO week 1 of `year`
(CPython `_isoweek1monday`). -/
def isoweek1monday (year : Nat) : Int :=
  let firstday : Int := (ymd2ord year 1 1 : Int)
  let firstweekday : Int := (firstday + 6) % 7
  let week1monday := firstday - firstweekday
  if firstweekday > 3 then week1monday + 7 else week1monday

/-- `(iso_year, iso_week)` of a date, following `datetime.isocalendar`. -/
def isocalendarYW (y m d : Nat) : Nat × Nat :=
  let today : Int := (ymd2ord y m d : Int)
  let week := Int.fdiv (today - isoweek1monday y) 7
  if week < 0 then
    (y - 1, (Int.fdiv (today - isoweek1monday (y - 1)) 7 + 1).toNat)
  else if week ≥ 52 then
    if today ≥ isoweek1monday (y + 1) then (y + 1, 1)
    else (y, (week + 1).toNat)
  else (y, (week + 1).toNat)

/-- `t.isocalendar()[1]`. -/
def PyDateTime.isoWeek (t : PyDateTime) : Nat := (isocalendarYW t.year t.month t.day).2

/-- `t.isocalendar()[0]`. -/
def PyDateTime.isoYear (t : PyDateTime) : Nat := (isocalendarYW t.year t.month t.day).1

/-- The body of `_should_refresh_menu` once `last_updated` has been obtained
as a datetime: rule 1 (≥ 7 days old), then rule 2 (smaller ISO week number). -/
def should_refresh_core (last_updated now : PyDateTime) : Bool :=
  if tdeltaDays now last_updated ≥ 7 then true
  else if last_updated.isoWeek < now.isoWeek then true
  else false

/-- The `menu_data["last_updated"]` field as the code can encounter it. -/
inductive LastUpdatedField where
  /-- already a `datetime` object -/
  | dtObj (d : PyDateTime)
  /-- a string accepted by `datetime.fromisoformat`, denoting `d` -/
  | isoStr (d : PyDateTime)
  /-- a string rejected by `fromisoformat` (raises `ValueError`) -/
  | badStr
  /-- neither `str` nor `datetime`: `now - last_updated` raises `TypeError` -/
  | nonTemporal
  deriving DecidableEq

/-- The slice of `menu_data` that `_should_refresh_menu` reads; `none` means
the `"last_updated"` key is missing (`KeyError`). -/
structure MenuData where
  last_updated : Option LastUpdatedField

/-- `MensaProvider._should_refresh_menu(menu_data)` at time `now`: any
exception in the body is caught and turned into `True`. -/
def should_refresh_menu (m : MenuData) (now : PyDateTime) : Bool :=
  match m.last_updated with
  | none => true
  | some .badStr => true
  | some .nonTemporal => true
  | some (.dtObj d) => should_refresh_core d now
  | some (.isoStr d) => should_refresh_core d now

/-! ### API health failover (src/utils/api_checker.py) -/

/-- The mutable fields of `APIStateManager` (`last_check` is wall-clock
logging only and not modelled). `_failure_counts` is kept as the dict it is
in the source. -/
structure APIManager where
  stations_base : String
  stations_name : String
  journeys_base : String
  journeys_name : String
  failure_counts : List (Key × Nat)
  deriving DecidableEq, Repr

/-- `APIStateManager.__init__` (first construction of the singleton). -/
def APIManager.init : APIManager :=
  { stations_base := "https://v6.bvg.transport.rest", stations_name := "bvg",
    journeys_base := "https://v6.bvg.transport.rest", journeys_name := "bvg",
    failure_counts := [("bvg_stations", 0), ("bvg_journeys", 0),
                       ("vbb_stations", 0), ("vbb_journeys", 0)] }

/-- `APIStateManager.handle_failure(api_key, threshold)`: increment the
counter, report whether it reached the threshold. -/
def APIManager.handle_failure (m : APIManager) (api_key : Key)
    (threshold : Nat) : APIManager × Bool :=
  let n := (lookupA m.failure_counts api_key).getD 0 + 1
  ({ m with failure_counts := setA m.failure_counts api_key n }, n ≥ threshold)

/-- `APIStateManager.reset_failures(api_key)`. -/
def APIManager.reset_failures (m : APIManager) (api_key : Key) : APIManager :=
  { m with failure_counts := setA m.failure_counts api_key 0 }

/-- Outcomes of the four probe batteries a cycle may run (`working` flags of
`test_stations_api` / `test_journeys_api` against each base URL): the network
effects, supplied as inputs to the pure cycle. -/
structure ProbeResults where
  bvg_stations_working : Bool
  vbb_stations_working : Bool
  bvg_journeys_working : Bool
  vbb_journeys_working : Bool

/-- Which secondary probes a cycle actually performed. -/
structure ProbeLog where
  vbb_stations_probed : Bool
  vbb_journeys_probed : Bool
  deriving DecidableEq, Repr

/-- The stations half of `check_and_update_apis`, with the
`handle_failure` threshold left as the parameter it is in the source
(every call site uses its default, 1). -/
def checkStations (threshold : Nat) (p : ProbeResults) (m : APIManager) :
    APIManager × Bool :=
  if p.bvg_stations_working then
    let m := m.reset_failures "bvg_stations"
    ({ m with stations_base := "https://v6.bvg.transport.rest",
              stations_name := "bvg" }, false)
  else
    let r := m.handle_failure "bvg_stations" threshold
    if r.2 then
      if p.vbb_stations_working then
        let m := { r.1 with stations_base := "https://v6.vbb.transport.rest",
                            stations_name := "vbb" }
        (m.reset_failures "vbb_stations", true)
      else (r.1, true)
    else (r.1, false)

/-- The journeys half of `check_and_update_apis`. -/
def checkJourneys (threshold : Nat) (p : ProbeResults) (m : APIManager) :
    APIManager × Bool :=
  if p.bvg_journeys_working then
    let m := m.reset_failures "bvg_journeys"
    ({ m with journeys_base := "https://v6.bvg.transport.rest",
              journeys_name := "bvg" }, false)
  else
    let r := m.handle_failure "bvg_journeys" threshold
    if r.2 then
      if p.vbb_journeys_working then
        let m := { r.1 with journeys_base := "https://v6.vbb.transport.rest",
                            journeys_name := "vbb" }
        (m.reset_failures "vbb_journeys", true)
      else (r.1, true)
    else (r.1, false)

/-- One full `check_and_update_apis` cycle (threshold 1, the default used at
every call site), together with the log of secondary probes performed. -/
def check_and_update_apis (p : ProbeResults) (m : APIManager) :
    APIManager × ProbeLog :=
  let s := checkStations 1 p m
  let j := checkJourneys 1 p s.1
  (j.1, { vbb_stations_probed := s.2, vbb_journeys_probed := j.2 })

/-- `get_current_stations_api_base()`. -/
def get_current_stations_api_base (m : APIManager) : String := m.stations_base

/-- `get_current_journeys_api_base()`. -/
def get_current_journeys_api_base (m : APIManager) : String := m.journeys_base

/-! ### Cache administration endpoint (src/api/endpoints.py) -/

/-- The names defined at module level in `src/utils/cache.py` (the import
surface of `utils.cache`). -/
def cacheModuleNames : List String :=
  ["SimpleCache", "api_cache", "geocoding_cache", "transport_cache",
   "mensa_cache", "CACHE_TTL", "get_cached_data", "set_cached_data",
   "cleanup_all_caches", "get_all_cache_stats"]

/-- `clear_all_caches_endpoint` (DELETE `/cache/clear`): executes
`from utils.cache import clear_all_caches` inside its `try`; when that name
cannot be resolved, the raised `ImportError` is turned by the
`except Exception` arm into an HTTP 500. `ok` would carry the cleared-total
response. -/
inductive EndpointOutcome where
  | ok (total_cleared : Nat)
  | httpError (status : Nat)
  deriving DecidableEq, Repr

/-- Outcome of one invocation of the clear-all endpoint, given the names the
cache module actually exports. -/
def clear_all_caches_endpoint (moduleNames : List String) : EndpointOutcome :=
  if "clear_all_caches" ∈ moduleNames then
    .ok 0
  else
    .httpError 500

/-! ### Lemmas about the dict model -/

/-- The keys of an association list, in iteration order. -/
def keysOf {α : Type} (l : List (Key × α)) : List Key := l.map Prod.fst

@[simp] theorem keysOf_nil {α : Type} : keysOf ([] : List (Key × α)) = [] := rfl

@[simp] theorem keysOf_cons {α : Type} (p : Key × α) (l : List (Key × α)) :
    keysOf (p :: l) = p.1 :: keysOf l := rfl

@[simp] theorem keysOf_append {α : Type} (l1 l2 : List (Key × α)) :
    keysOf (l1 ++ l2) = keysOf l1 ++ keysOf l2 := by
  simp [keysOf]

theorem lookupA_eq_none_iff {α : Type} (l : List (Key × α)) (k : Key) :
    lookupA l k = none ↔ k ∉ keysOf l := by
  induction l with
  | nil => simp [lookupA]
  | cons p rest ih =>
      obtain ⟨k0, v0⟩ := p
      by_cases h : k0 = k
      · subst h; simp [lookupA]
      · simp [lookupA, h, ih, Ne.symm h]

theorem lookupA_isSome_iff {α : Type} (l : List (Key × α)) (k : Key) :
    (lookupA l k).isSome ↔ k ∈ keysOf l := by
  rw [Option.isSome_iff_ne_none]
  rw [ne_eq, lookupA_eq_none_iff, not_not]

theorem mem_keysOf_of_lookupA {α : Type} {l : List (Key × α)} {k : Key} {v : α}
    (h : lookupA l k = some v) : k ∈ keysOf l := by
  rw [← lookupA_isSome_iff, h]; rfl

theorem keysOf_eraseA {α : Type} (l : List (Key × α)) (k : Key) :
    keysOf (eraseA l k) = (keysOf l).erase k := by
  induction l with
  | nil => simp [eraseA]
  | cons p rest ih =>
      obtain ⟨k0, v0⟩ := p
      by_cases h : k0 = k
      · subst h
        simp [eraseA, List.erase_cons]
      · simp [eraseA, h, ih, List.erase_cons, Ne.symm h]

theorem lookupA_eraseA_ne {α : Type} (l : List (Key × α)) {k k' : Key}
    (h : k ≠ k') : lookupA (eraseA l k) k' = lookupA l k' := by
  induction l with
  | nil => simp [eraseA]
  | cons p rest ih =>
      obtain ⟨k0, v0⟩ := p
      by_cases h0 : k0 = k
      · subst h0; simp [eraseA, lookupA, h]
      · simp [eraseA, h0, lookupA, ih]

theorem lookupA_eraseA_self {α : Type} {l : List (Key × α)} {k : Key}
    (nd : (keysOf l).Nodup) : lookupA (eraseA l k) k = none := by
  rw [lookupA_eq_none_iff, keysOf_eraseA]
  exact fun hmem => (List.Nodup.mem_erase_iff nd).1 hmem |>.1 rfl

theorem lookupA_setA_self {α : Type} (l : List (Key × α)) (k : Key) (v : α) :
    lookupA (setA l k v) k = some v := by
  induction l with
  | nil => simp [setA, lookupA]
  | cons p rest ih =>
      obtain ⟨k0, v0⟩ := p
      by_cases h : k0 = k <;> simp [setA, h, lookupA, ih]

theorem lookupA_setA_ne {α : Type} (l : List (Key × α)) {k k' : Key} (v : α)
    (h : k ≠ k') : lookupA (setA l k v) k' = lookupA l k' := by
  induction l with
  | nil => simp [setA, lookupA, h]
  | cons p rest ih =>
      obtain ⟨k0, v0⟩ := p
      by_cases h0 : k0 = k
      · subst h0; simp [setA, lookupA, h]
      · simp [setA, h0, lookupA, ih]

theorem keysOf_setA_of_mem {α : Type} {l : List (Key × α)} {k : Key} (v : α)
    (h : k ∈ keysOf l) : keysOf (setA l k v) = keysOf l := by
  induction l with
  | nil => simp at h
  | cons p rest ih =>
      obtain ⟨k0, v0⟩ := p
      by_cases h0 : k0 = k
      · subst h0; simp [setA]
      · simp [Ne.symm h0] at h
        simp [setA, h0, ih h]

theorem setA_of_not_mem {α : Type} {l : List (Key × α)} {k : Key} (v : α)
    (h : k ∉ keysOf l) : setA l k v = l ++ [(k, v)] := by
  induction l with
  | nil => simp [setA]
  | cons p rest ih =>
      obtain ⟨k0, v0⟩ := p
      simp at h
      have h0 : ¬k0 = k := fun hh => h.1 hh.symm
      simp [setA, h0, ih h.2]

theorem lookupA_append_of_none {α : Type} {l1 : List (Key × α)}
    (l2 : List (Key × α)) {k : Key} (h : lookupA l1 k = none) :
    lookupA (l1 ++ l2) k = lookupA l2 k := by
  induction l1 with
  | nil => simp
  | cons p rest ih =>
      obtain ⟨k0, v0⟩ := p
      by_cases h0 : k0 = k
      · simp [lookupA, h0] at h
      · simp [lookupA, h0] at h ⊢; exact ih h

theorem lookupA_append_of_some {α : Type} {l1 : List (Key × α)}
    (l2 : List (Key × α)) {k : Key} {v : α} (h : lookupA l1 k = some v) :
    lookupA (l1 ++ l2) k = some v := by
  induction l1 with
  | nil => simp [lookupA] at h
  | cons p rest ih =>
      obtain ⟨k0, v0⟩ := p
      by_cases h0 : k0 = k
      · simp [lookupA, h0] at h ⊢; exact h
      · simp [lookupA, h0] at h ⊢; exact ih h

theorem lookupA_singleton_ne {α : Type} {k k' : Key} (v : α) (h : k ≠ k') :
    lookupA [(k, v)] k' = none := by
  simp [lookupA, h]

theorem moveToEnd_of_none {α : Type} {l : List (Key × α)} {k : Key}
    (h : lookupA l k = none) : moveToEnd l k = l := by
  simp [moveToEnd, h]

theorem moveToEnd_of_some {α : Type} {l : List (Key × α)} {k : Key} {v : α}
    (h : lookupA l k = some v) : moveToEnd l k = eraseA l k ++ [(k, v)] := by
  simp [moveToEnd, h]

theorem lookupA_moveToEnd_ne {α : Type} (l : List (Key × α)) {k k' : Key}
    (h : k ≠ k') : lookupA (moveToEnd l k) k' = lookupA l k' := by
  cases hl : lookupA l k with
  | none => rw [moveToEnd_of_none hl]
  | some v =>
      rw [moveToEnd_of_some hl]
      cases he : lookupA (eraseA l k) k' with
      | none =>
          rw [lookupA_append_of_none _ he, lookupA_singleton_ne _ h,
            ← lookupA_eraseA_ne l h, he]
      | some w =>
          rw [lookupA_append_of_some _ he, ← lookupA_eraseA_ne l h, he]

theorem lookupA_moveToEnd_self {α : Type} {l : List (Key × α)} (k : Key)
    (nd : (keysOf l).Nodup) : lookupA (moveToEnd l k) k = lookupA l k := by
  cases hl : lookupA l k with
  | none => rw [moveToEnd_of_none hl]; exact hl
  | some v =>
      rw [moveToEnd_of_some hl, lookupA_append_of_none _ (lookupA_eraseA_self nd)]
      simp [lookupA]

theorem mem_keysOf_setA {α : Type} (l : List (Key × α)) (k k' : Key) (v : α) :
    k' ∈ keysOf (setA l k v) ↔ k' = k ∨ k' ∈ keysOf l := by
  by_cases h : k ∈ keysOf l
  · rw [keysOf_setA_of_mem v h]
    constructor
    · exact Or.inr
    · rintro (rfl | hm); exacts [h, hm]
  · rw [setA_of_not_mem v h]
    simp [or_comm]

theorem mem_keysOf_moveToEnd {α : Type} (l : List (Key × α)) (k k' : Key) :
    k' ∈ keysOf (moveToEnd l k) ↔ k' ∈ keysOf l := by
  cases hl : lookupA l k with
  | none => rw [moveToEnd_of_none hl]
  | some v =>
      rw [moveToEnd_of_some hl]
      rw [keysOf_append, keysOf_eraseA]
      by_cases h : k' = k
      · subst h
        simp [mem_keysOf_of_lookupA hl]
      · simp [h, List.mem_erase_of_ne h]

theorem nodup_keysOf_eraseA {α : Type} {l : List (Key × α)} (k : Key)
    (nd : (keysOf l).Nodup) : (keysOf (eraseA l k)).Nodup := by
  rw [keysOf_eraseA]; exact nd.erase k

theorem nodup_keysOf_setA {α : Type} {l : List (Key × α)} (k : Key) (v : α)
    (nd : (keysOf l).Nodup) : (keysOf (setA l k v)).Nodup := by
  by_cases h : k ∈ keysOf l
  · rw [keysOf_setA_of_mem v h]; exact nd
  · rw [setA_of_not_mem v h]
    simp [List.nodup_append, nd, h]

theorem nodup_keysOf_moveToEnd {α : Type} {l : List (Key × α)} (k : Key)
    (nd : (keysOf l).Nodup) : (keysOf (moveToEnd l k)).Nodup := by
  cases hl : lookupA l k with
  | none => rw [moveToEnd_of_none hl]; exact nd
  | some v =>
      rw [moveToEnd_of_some hl, keysOf_append, keysOf_eraseA]
      simp only [keysOf_cons, keysOf_nil, List.nodup_append]
      refine ⟨nd.erase k, List.nodup_singleton k, ?_⟩
      intro a ha hb
      simp at hb
      subst hb
      exact ((List.Nodup.mem_erase_iff nd).1 ha).1 rfl

theorem length_keysOf {α : Type} (l : List (Key × α)) :
    (keysOf l).length = l.length := by simp [keysOf]

theorem length_eraseA_of_mem {α : Type} {l : List (Key × α)} {k : Key}
    (h : k ∈ keysOf l) : (eraseA l k).length = l.length - 1 := by
  rw [← length_keysOf, keysOf_eraseA, List.length_erase_of_mem h, length_keysOf]

theorem length_setA_of_mem {α : Type} {l : List (Key × α)} {k : Key} (v : α)
    (h : k ∈ keysOf l) : (setA l k v).length = l.length := by
  rw [← length_keysOf, keysOf_setA_of_mem v h, length_keysOf]

theorem length_moveToEnd_of_mem {α : Type} {l : List (Key × α)} {k : Key}
    (h : k ∈ keysOf l) : (moveToEnd l k).length = l.length := by
  cases hl : lookupA l k with
  | none => rw [moveToEnd_of_none hl]
  | some v =>
      rw [moveToEnd_of_some hl, List.length_append, length_eraseA_of_mem h]
      have : 1 ≤ l.length := by
        have := List.length_pos_of_mem h
        rw [length_keysOf] at this
        omega
      simp; omega

theorem eraseA_cons_self {α : Type} (k : Key) (v : α) (rest : List (Key × α)) :
    eraseA ((k, v) :: rest) k = rest := by simp [eraseA]

/-! ### The internal-bookkeeping invariant -/

/-- Well-formedness of a cache state: both dicts have duplicate-free keys and
hold exactly the same key set. -/
def WF {α : Type} (c : SimpleCache α) : Prop :=
  (keysOf c.cache).Nodup ∧ (keysOf c.timestamps).Nodup ∧
  ∀ k, k ∈ keysOf c.cache ↔ k ∈ keysOf c.timestamps

theorem WF_init (α : Type) (max_size ttl : Nat) : WF (SimpleCache.init α max_size ttl) := by
  refine ⟨List.nodup_nil, List.nodup_nil, fun k => ?_⟩
  simp [SimpleCache.init]

/-- Erasing the same key from both dicts preserves well-formedness data. -/
theorem erase_both_preserves {α β : Type} {l1 : List (Key × α)}
    {l2 : List (Key × β)} (k : Key)
    (h1 : (keysOf l1).Nodup) (h2 : (keysOf l2).Nodup)
    (h3 : ∀ k', k' ∈ keysOf l1 ↔ k' ∈ keysOf l2) :
    (keysOf (eraseA l1 k)).Nodup ∧ (keysOf (eraseA l2 k)).Nodup ∧
    ∀ k', k' ∈ keysOf (eraseA l1 k) ↔ k' ∈ keysOf (eraseA l2 k) := by
  refine ⟨nodup_keysOf_eraseA k h1, nodup_keysOf_eraseA k h2, fun k' => ?_⟩
  rw [keysOf_eraseA, keysOf_eraseA, List.Nodup.mem_erase_iff h1,
    List.Nodup.mem_erase_iff h2, h3 k']

/-- The eviction loop of `set` preserves well-formedness data. -/
theorem evictWhileFull_preserves {α : Type} (max_size : Nat)
    (l1 : List (Key × α)) (l2 : List (Key × Nat)) (ev : Nat)
    (h1 : (keysOf l1).Nodup) (h2 : (keysOf l2).Nodup)
    (h3 : ∀ k', k' ∈ keysOf l1 ↔ k' ∈ keysOf l2) :
    (keysOf (evictWhileFull max_size l1 l2 ev).1).Nodup ∧
    (keysOf (evictWhileFull max_size l1 l2 ev).2.1).Nodup ∧
    ∀ k', k' ∈ keysOf (evictWhileFull max_size l1 l2 ev).1 ↔
          k' ∈ keysOf (evictWhileFull max_size l1 l2 ev).2.1 := by
  induction l1 generalizing l2 ev with
  | nil => exact ⟨h1, h2, h3⟩
  | cons p rest ih =>
      obtain ⟨k, v⟩ := p
      by_cases hcond : rest.length + 1 ≥ max_size
      · simp only [evictWhileFull, if_pos hcond]
        have step := @erase_both_preserves α Nat ((k, v) :: rest) l2 k h1 h2 h3
        rw [eraseA_cons_self] at step
        exact ih _ _ step.1 step.2.1 step.2.2
      · simp only [evictWhileFull, if_neg hcond]
        exact ⟨h1, h2, h3⟩

/-- When strictly below capacity the eviction loop of `set` is a no-op. -/
theorem evictWhileFull_of_lt {α : Type} (max_size : Nat)
    (l1 : List (Key × α)) (l2 : List (Key × Nat)) (ev : Nat)
    (h : l1.length < max_size) :
    evictWhileFull max_size l1 l2 ev = (l1, l2, ev) := by
  cases l1 with
  | nil => rfl
  | cons p rest =>
      obtain ⟨k, v⟩ := p
      have : ¬(rest.length + 1 ≥ max_size) := by simp at h; omega
      simp only [evictWhileFull, if_neg this]

/-- When exactly at capacity the eviction loop removes exactly the first
(oldest) entry. -/
theorem evictWhileFull_of_eq {α : Type} (max_size : Nat)
    (l1 : List (Key × α)) (l2 : List (Key × Nat)) (ev : Nat)
    (hlen : l1.length = max_size) (hpos : 1 ≤ max_size) :
    evictWhileFull max_size l1 l2 ev =
      (l1.tail, eraseA l2 (((keysOf l1).headI : Key)), ev + 1) := by
  cases l1 with
  | nil => simp at hlen; omega
  | cons p rest =>
      obtain ⟨k, v⟩ := p
      have hcond : rest.length + 1 ≥ max_size := by simp at hlen; omega
      simp only [evictWhileFull, if_pos hcond]
      have hrest : rest.length < max_size := by simp at hlen; omega
      rw [evictWhileFull_of_lt max_size rest _ _ hrest]
      simp [keysOf]

theorem WF_get {α : Type} {c : SimpleCache α} (key : Key) (now : Nat)
    (h : WF c) : WF (c.get key now).2 := by
  obtain ⟨h1, h2, h3⟩ := h
  unfold SimpleCache.get
  cases hl : lookupA c.cache key with
  | none => exact ⟨h1, h2, h3⟩
  | some v =>
      by_cases hfresh : now - (lookupA c.timestamps key).getD 0 < c.ttl
      · simp only [if_pos hfresh]
        refine ⟨nodup_keysOf_moveToEnd key h1, h2, fun k' => ?_⟩
        rw [mem_keysOf_moveToEnd]
        exact h3 k'
      · simp only [if_neg hfresh]
        exact erase_both_preserves key h1 h2 h3

theorem WF_set {α : Type} {c : SimpleCache α} (key : Key) (v : α) (now : Nat)
    (h : WF c) : WF (c.set key v now) := by
  obtain ⟨h1, h2, h3⟩ := h
  unfold SimpleCache.set
  have hev := evictWhileFull_preserves c.max_size c.cache c.timestamps c.evictions h1 h2 h3
  refine ⟨?_, ?_, fun k' => ?_⟩
  · exact nodup_keysOf_moveToEnd key (nodup_keysOf_setA key v hev.1)
  · exact nodup_keysOf_setA key now hev.2.1
  · rw [mem_keysOf_moveToEnd, mem_keysOf_setA, mem_keysOf_setA]
    rcases eq_or_ne k' key with hk | hk
    · simp [hk]
    · simp only [hk, false_or]
      exact hev.2.2 k'

theorem WF_delete {α : Type} {c : SimpleCache α} (key : Key)
    (h : WF c) : WF (c.delete key).2 := by
  obtain ⟨h1, h2, h3⟩ := h
  unfold SimpleCache.delete
  cases hl : lookupA c.cache key with
  | none => exact ⟨h1, h2, h3⟩
  | some v => exact erase_both_preserves key h1 h2 h3

theorem WF_clear {α : Type} {c : SimpleCache α} (_h : WF c) : WF c.clear := by
  refine ⟨List.nodup_nil, List.nodup_nil, fun k => ?_⟩
  simp [SimpleCache.clear]

/-- Folding the same erasures over both dicts preserves well-formedness
data. -/
theorem foldl_erase_both_preserves {α : Type} (ks : List Key)
    (l1 : List (Key × α)) (l2 : List (Key × Nat))
    (h1 : (keysOf l1).Nodup) (h2 : (keysOf l2).Nodup)
    (h3 : ∀ k', k' ∈ keysOf l1 ↔ k' ∈ keysOf l2) :
    (keysOf (ks.foldl eraseA l1)).Nodup ∧
    (keysOf (ks.foldl eraseA l2)).Nodup ∧
    ∀ k', k' ∈ keysOf (ks.foldl eraseA l1) ↔ k' ∈ keysOf (ks.foldl eraseA l2) := by
  induction ks generalizing l1 l2 with
  | nil => exact ⟨h1, h2, h3⟩
  | cons k rest ih =>
      have step := erase_both_preserves k h1 h2 h3
      exact ih _ _ step.1 step.2.1 step.2.2

theorem WF_cleanup {α : Type} {c : SimpleCache α} (now : Nat)
    (h : WF c) : WF (c.cleanup_expired now).2 := by
  obtain ⟨h1, h2, h3⟩ := h
  unfold SimpleCache.cleanup_expired
  exact foldl_erase_both_preserves _ c.cache c.timestamps h1 h2 h3

theorem WF_applyOp {α : Type} {c : SimpleCache α} (op : Op α)
    (h : WF c) : WF (applyOp c op) := by
  cases op with
  | get key now => exact WF_get key now h
  | set key v now => exact WF_set key v now h
  | delete key => exact WF_delete key h
  | clear => exact WF_clear h
  | cleanup now => exact WF_cleanup now h

theorem WF_applyOps {α : Type} (c : SimpleCache α) (ops : List (Op α))
    (h : WF c) : WF (applyOps c ops) := by
  induction ops generalizing c with
  | nil => exact h
  | cons op rest ih => exact ih _ (WF_applyOp op h)

theorem eraseA_append_of_not_mem {α : Type} {l1 : List (Key × α)}
    (l2 : List (Key × α)) {k : Key} (h : k ∉ keysOf l1) :
    eraseA (l1 ++ l2) k = l1 ++ eraseA l2 k := by
  induction l1 with
  | nil => simp
  | cons p rest ih =>
      obtain ⟨k0, v0⟩ := p
      simp at h
      have h0 : ¬k0 = k := fun hh => h.1 hh.symm
      simp [eraseA, h0, ih h.2]

theorem getLast?_append_singleton {α : Type} (l : List α) (a : α) :
    (l ++ [a]).getLast? = some a := by
  simp

theorem not_mem_keysOf_tail {α : Type} {l : List (Key × α)} {k : Key}
    (h : k ∉ keysOf l) : k ∉ keysOf l.tail := by
  cases l with
  | nil => simp
  | cons p rest => simp at h ⊢; exact h.2

/-! ### Claim theorems -/

/-- C9: after every finite sequence of get/set/delete/clear/cleanup_expired
operations on a cache constructed with `max_size ≥ 1`, the key set of the
value map `_cache` equals the key set of `_timestamps`: no operation leaves
an entry in one internal structure but not the other. -/
theorem cache_and_timestamp_key_sets_agree :
    ∀ (α : Type) (max_size ttl : Nat), 1 ≤ max_size →
    ∀ (ops : List (Op α)) (k : Key),
      k ∈ keysOf (applyOps (SimpleCache.init α max_size ttl) ops).cache ↔
      k ∈ keysOf (applyOps (SimpleCache.init α max_size ttl) ops).timestamps :=
  fun α ms ttl _ ops k => (WF_applyOps _ ops (WF_init α ms ttl)).2.2 k

theorem cache_and_timestamp_key_sets_agree_witness :
    1 ≤ 2 ∧
    ("a" ∈ keysOf (applyOps (SimpleCache.init ℕ 2 30)
        [Op.set "a" 1 0, Op.get "a" 1, Op.get "b" 2]).cache ↔
     "a" ∈ keysOf (applyOps (SimpleCache.init ℕ 2 30)
        [Op.set "a" 1 0, Op.get "a" 1, Op.get "b" 2]).timestamps) :=
  ⟨by decide, cache_and_timestamp_key_sets_agree ℕ 2 30 (by decide)
      [Op.set "a" 1 0, Op.get "a" 1, Op.get "b" 2] "a"⟩

/-- C7 (code bug): the administrative clear-all endpoint executes
`from utils.cache import clear_all_caches`, but `utils/cache.py` defines no
such name, so every invocation raises `ImportError` inside the `try` and is
answered with HTTP 500 — the caches are never cleared and no total is
reported. -/
theorem clear_all_endpoint_http_500 :
    clear_all_caches_endpoint cacheModuleNames = EndpointOutcome.httpError 500 := by
  decide

/-- C10: when the record's `last_updated` is missing (`KeyError`), is a
string `fromisoformat` rejects (`ValueError`), or has a type for which the
age computation raises (`TypeError`), `_should_refresh_menu` returns `True`:
a record whose age cannot be determined is treated as stale. -/
theorem freshness_fail_safe :
    ∀ (m : MenuData) (now : PyDateTime),
      m.last_updated = none ∨ m.last_updated = some LastUpdatedField.badStr ∨
      m.last_updated = some LastUpdatedField.nonTemporal →
      should_refresh_menu m now = true := by
  rintro m now (h | h | h) <;> simp [should_refresh_menu, h]

theorem freshness_fail_safe_witness :
    ((⟨none⟩ : MenuData).last_updated = none ∨
     (⟨none⟩ : MenuData).last_updated = some LastUpdatedField.badStr ∨
     (⟨none⟩ : MenuData).last_updated = some LastUpdatedField.nonTemporal) ∧
    should_refresh_menu ⟨none⟩ ⟨2025, 1, 1, 0⟩ = true :=
  ⟨Or.inl rfl, freshness_fail_safe ⟨none⟩ ⟨2025, 1, 1, 0⟩ (Or.inl rfl)⟩

/-- C4 counterexample: `last_updated` on Sunday 2025-12-28 23:59 lies in ISO
week (2025, 52), strictly earlier than `now` = Monday 2025-12-29 00:01 in
ISO week (2026, 1), and the record is far younger than 7 days — yet
`_should_refresh_menu` returns `False`, because it compares only the week
numbers (52 < 1 fails) and ignores the ISO year. -/
theorem weekly_refresh_year_boundary_counterexample :
    ((⟨2025, 12, 28, 86340⟩ : PyDateTime).isoYear,
     (⟨2025, 12, 28, 86340⟩ : PyDateTime).isoWeek) = (2025, 52) ∧
    ((⟨2025, 12, 29, 60⟩ : PyDateTime).isoYear,
     (⟨2025, 12, 29, 60⟩ : PyDateTime).isoWeek) = (2026, 1) ∧
    tdeltaDays ⟨2025, 12, 29, 60⟩ ⟨2025, 12, 28, 86340⟩ = 0 ∧
    should_refresh_menu ⟨some (LastUpdatedField.dtObj ⟨2025, 12, 28, 86340⟩)⟩
      ⟨2025, 12, 29, 60⟩ = false := by
  decide

/-- C4 amended: the freshness decision returns `True` exactly when the
record is at least 7 days old or `last_updated`'s ISO *week number* is
strictly smaller than `now`'s; in particular a strictly earlier ISO week
within the same ISO year forces a refresh, but across a year boundary the
week-number comparison does not fire. -/
theorem weekly_refresh_iff :
    ∀ (lu now : PyDateTime),
      (should_refresh_menu ⟨some (LastUpdatedField.dtObj lu)⟩ now = true ↔
        7 ≤ tdeltaDays now lu ∨ lu.isoWeek < now.isoWeek) ∧
      (should_refresh_menu ⟨some (LastUpdatedField.isoStr lu)⟩ now = true ↔
        7 ≤ tdeltaDays now lu ∨ lu.isoWeek < now.isoWeek) := by
  intro lu now
  constructor <;>
  · simp only [should_refresh_menu, should_refresh_core]
    split_ifs with h1 h2 <;> simp_all

theorem weekly_refresh_iff_witness :
    should_refresh_menu ⟨some (LastUpdatedField.dtObj ⟨2025, 10, 5, 86340⟩)⟩
      ⟨2025, 10, 6, 60⟩ = true :=
  (weekly_refresh_iff ⟨2025, 10, 5, 86340⟩ ⟨2025, 10, 6, 60⟩).1.mpr
    (Or.inr (by decide))

/-- C1: for an entry of key `k` holding value `v` and timestamp `t0` (as
established by `set(k, v)` at `t0` with nothing since touching `k`), a
`get(k)` strictly before `t0 + ttl` returns `v` and records a hit; a
`get(k)` at or after `t0 + ttl` returns absent, removes the entry from both
internal maps, and records an eviction and a miss; and whenever `get`
returns a value, that value's age is strictly below `ttl`. -/
theorem ttl_correctness_of_get :
    ∀ (α : Type) (c : SimpleCache α) (k : Key) (v : α) (t0 t : Nat),
      lookupA c.cache k = some v →
      lookupA c.timestamps k = some t0 →
      t0 ≤ t →
      (keysOf c.cache).Nodup →
      (keysOf c.timestamps).Nodup →
      (t < t0 + c.ttl →
        (c.get k t).1 = some v ∧
        (c.get k t).2.hits = c.hits + 1 ∧
        (c.get k t).2.misses = c.misses ∧
        (c.get k t).2.evictions = c.evictions) ∧
      (t0 + c.ttl ≤ t →
        (c.get k t).1 = none ∧
        lookupA (c.get k t).2.cache k = none ∧
        lookupA (c.get k t).2.timestamps k = none ∧
        (c.get k t).2.evictions = c.evictions + 1 ∧
        (c.get k t).2.misses = c.misses + 1) ∧
      (∀ w, (c.get k t).1 = some w → w = v ∧ t - t0 < c.ttl) := by
  intro α c k v t0 t hl hts h0t nd1 nd2
  simp only [SimpleCache.get, hl, hts, Option.getD_some]
  by_cases hfresh : t - t0 < c.ttl
  · rw [if_pos hfresh]
    refine ⟨fun _ => ⟨rfl, rfl, rfl, rfl⟩, fun hexp => absurd hfresh (by omega),
      fun w hw => ?_⟩
    simp only at hw
    exact ⟨(Option.some.injEq v w ▸ hw).symm, hfresh⟩
  · rw [if_neg hfresh]
    refine ⟨fun hlt => absurd (show t - t0 < c.ttl by omega) hfresh,
      fun _ => ⟨rfl, lookupA_eraseA_self nd1, lookupA_eraseA_self nd2, rfl, rfl⟩,
      fun w hw => by simp at hw⟩

theorem ttl_correctness_of_get_witness :
    lookupA ((SimpleCache.init ℕ 5 30).set "k" 7 0).cache "k" = some 7 ∧
    (((SimpleCache.init ℕ 5 30).set "k" 7 0).get "k" 29).1 = some 7 ∧
    (((SimpleCache.init ℕ 5 30).set "k" 7 0).get "k" 31).1 = none :=
  ⟨by decide,
   ((ttl_correctness_of_get ℕ ((SimpleCache.init ℕ 5 30).set "k" 7 0) "k" 7 0 29
      (by decide) (by decide) (by decide) (by decide) (by decide)).1
      (by decide)).1,
   ((ttl_correctness_of_get ℕ ((SimpleCache.init ℕ 5 30).set "k" 7 0) "k" 7 0 31
      (by decide) (by decide) (by decide) (by decide) (by decide)).2.1
      (by decide)).1⟩

/-- C2 counterexample: `set` runs its capacity loop before looking at the
key, so overwriting an existing key while `len == max_size` *does* evict.
With `max_size = 1`, overwriting the sole key `"a"` bumps `evictions`; with
`max_size = 2`, overwriting `"b"` evicts the *other* key `"a"` and shrinks
the cache — contradicting every conjunct of the at-capacity part of the
claim. -/
theorem overwrite_at_capacity_evicts :
    (let c := (SimpleCache.init ℕ 1 100).set "a" 1 0
     lookupA c.cache "a" = some 1 ∧ c.cache.length = c.max_size ∧
     (c.set "a" 2 5).evictions = c.evictions + 1) ∧
    (let d := ((SimpleCache.init ℕ 2 100).set "a" 1 0).set "b" 2 1
     lookupA d.cache "b" = some 2 ∧ d.cache.length = d.max_size ∧
     lookupA (d.set "b" 3 2).cache "a" = none ∧
     (d.set "b" 3 2).cache.length = 1 ∧
     (d.set "b" 3 2).evictions = d.evictions + 1) := by
  decide

/-- C2 amended: overwriting an existing key while the cache is *strictly
below* capacity returns the new value on the next `get`, leaves the entry
count and the evictions counter unchanged, and removes no other entry; at
full capacity (`len == max_size`) the code instead first evicts the oldest
entry — counting an eviction — even though the key is already present. -/
theorem overwrite_below_capacity :
    ∀ (α : Type) (c : SimpleCache α) (k : Key) (v1 v2 : α) (now : Nat),
      lookupA c.cache k = some v1 →
      c.cache.length < c.max_size →
      (keysOf c.cache).Nodup →
      (c.set k v2 now).cache.length = c.cache.length ∧
      (c.set k v2 now).evictions = c.evictions ∧
      lookupA (c.set k v2 now).cache k = some v2 ∧
      (∀ k', k' ≠ k → lookupA (c.set k v2 now).cache k' = lookupA c.cache k') ∧
      (∀ t, t - now < c.ttl → ((c.set k v2 now).get k t).1 = some v2) := by
  intro α c k v1 v2 now hl hlen nd
  have hmem : k ∈ keysOf c.cache := mem_keysOf_of_lookupA hl
  have hcache : (c.set k v2 now).cache = moveToEnd (setA c.cache k v2) k := by
    simp only [SimpleCache.set, evictWhileFull_of_lt c.max_size c.cache
      c.timestamps c.evictions hlen]
  have hts : (c.set k v2 now).timestamps = setA c.timestamps k now := by
    simp only [SimpleCache.set, evictWhileFull_of_lt c.max_size c.cache
      c.timestamps c.evictions hlen]
  have hev : (c.set k v2 now).evictions = c.evictions := by
    simp only [SimpleCache.set, evictWhileFull_of_lt c.max_size c.cache
      c.timestamps c.evictions hlen]
  have hmem' : k ∈ keysOf (setA c.cache k v2) :=
    (mem_keysOf_setA c.cache k k v2).2 (Or.inl rfl)
  have hlook : lookupA (c.set k v2 now).cache k = some v2 := by
    rw [hcache, lookupA_moveToEnd_self k (nodup_keysOf_setA k v2 nd),
      lookupA_setA_self]
  refine ⟨?_, hev, hlook, fun k' hk' => ?_, fun t ht => ?_⟩
  · rw [hcache, length_moveToEnd_of_mem hmem', length_setA_of_mem v2 hmem]
  · rw [hcache, lookupA_moveToEnd_ne _ (Ne.symm hk'),
      lookupA_setA_ne c.cache v2 (Ne.symm hk')]
  · have hts' : lookupA (c.set k v2 now).timestamps k = some now := by
      rw [hts, lookupA_setA_self]
    have httl : (c.set k v2 now).ttl = c.ttl := rfl
    simp only [SimpleCache.get, hlook, hts', Option.getD_some, httl, if_pos ht]

theorem overwrite_below_capacity_witness :
    lookupA ((SimpleCache.init ℕ 5 100).set "a" 1 0).cache "a" = some 1 ∧
    (((SimpleCache.init ℕ 5 100).set "a" 1 0).set "a" 2 3).evictions =
      ((SimpleCache.init ℕ 5 100).set "a" 1 0).evictions ∧
    lookupA (((SimpleCache.init ℕ 5 100).set "a" 1 0).set "a" 2 3).cache "a" =
      some 2 :=
  ⟨by decide,
   (overwrite_below_capacity ℕ ((SimpleCache.init ℕ 5 100).set "a" 1 0) "a" 1 2 3
      (by decide) (by decide) (by decide)).2.1,
   (overwrite_below_capacity ℕ ((SimpleCache.init ℕ 5 100).set "a" 1 0) "a" 1 2 3
      (by decide) (by decide) (by decide)).2.2.1⟩

/-- C3: (1) `set` with a new key on a cache holding exactly `max_size ≥ 1`
entries removes exactly the first entry of the recency order — the
least-recently-used one — and counts exactly one eviction; (2) `set` always
leaves its key at the most-recently-used (last) position; (3) a successful
fresh `get` moves its key to the most-recently-used position. Together these
give the claimed behaviours of inserting N+1 distinct keys and of the
set/set/get/set example. -/
theorem lru_eviction_target :
    (∀ (α : Type) (c : SimpleCache α) (k : Key) (v : α) (now : Nat),
      c.cache.length = c.max_size → 1 ≤ c.max_size → lookupA c.cache k = none →
      (c.set k v now).cache = c.cache.tail ++ [(k, v)] ∧
      (c.set k v now).evictions = c.evictions + 1) ∧
    (∀ (α : Type) (c : SimpleCache α) (k : Key) (v : α) (now : Nat),
      (c.set k v now).cache.getLast? = some (k, v)) ∧
    (∀ (α : Type) (c : SimpleCache α) (k : Key) (v : α) (t0 t : Nat),
      lookupA c.cache k = some v → lookupA c.timestamps k = some t0 →
      t - t0 < c.ttl →
      ((c.get k t).2).cache.getLast? = some (k, v)) := by
  refine ⟨?_, ?_, ?_⟩
  · intro α c k v now hlen hpos hnew
    have hnm : k ∉ keysOf c.cache := (lookupA_eq_none_iff _ _).1 hnew
    have hnmt : k ∉ keysOf c.cache.tail := not_mem_keysOf_tail hnm
    simp only [SimpleCache.set,
      evictWhileFull_of_eq c.max_size c.cache c.timestamps c.evictions hlen hpos]
    rw [setA_of_not_mem v hnmt]
    have hlook : lookupA (c.cache.tail ++ [(k, v)]) k = some v := by
      rw [lookupA_append_of_none _ ((lookupA_eq_none_iff _ _).2 hnmt)]
      simp [lookupA]
    rw [moveToEnd_of_some hlook, eraseA_append_of_not_mem _ hnmt]
    simp [eraseA]
  · intro α c k v now
    simp only [SimpleCache.set]
    rw [moveToEnd_of_some (lookupA_setA_self _ k v)]
    exact getLast?_append_singleton _ _
  · intro α c k v t0 t hl hts hfresh
    simp only [SimpleCache.get, hl, hts, Option.getD_some, if_pos hfresh]
    rw [moveToEnd_of_some hl]
    exact getLast?_append_singleton _ _

theorem lru_eviction_target_witness :
    lookupA (((((SimpleCache.init ℕ 2 300).set "a" 1 0).set "b" 2 1).get "a" 2).2).cache
      "c" = none ∧
    (((((((SimpleCache.init ℕ 2 300).set "a" 1 0).set "b" 2 1).get "a" 2).2).set
        "c" 3 3).cache =
      (((((SimpleCache.init ℕ 2 300).set "a" 1 0).set "b" 2 1).get "a" 2).2).cache.tail
        ++ [("c", 3)] ∧
     ((((((SimpleCache.init ℕ 2 300).set "a" 1 0).set "b" 2 1).get "a" 2).2).set
        "c" 3 3).evictions =
      (((((SimpleCache.init ℕ 2 300).set "a" 1 0).set "b" 2 1).get "a" 2).2).evictions
        + 1) :=
  ⟨by decide,
   lru_eviction_target.1 ℕ
     (((((SimpleCache.init ℕ 2 300).set "a" 1 0).set "b" 2 1).get "a" 2).2) "c" 3 3
     (by decide) (by decide) (by decide)⟩

/-! Helper facts about the failover cycle -/

theorem checkJourneys_preserves_stations (T : Nat) (p : ProbeResults)
    (m : APIManager) :
    (checkJourneys T p m).1.stations_base = m.stations_base ∧
    (checkJourneys T p m).1.stations_name = m.stations_name := by
  unfold checkJourneys APIManager.handle_failure APIManager.reset_failures
  split_ifs <;> (try simp) <;> split_ifs <;> simp

theorem checkStations_preserves_journeys (T : Nat) (p : ProbeResults)
    (m : APIManager) :
    (checkStations T p m).1.journeys_base = m.journeys_base ∧
    (checkStations T p m).1.journeys_name = m.journeys_name := by
  unfold checkStations APIManager.handle_failure APIManager.reset_failures
  split_ifs <;> (try simp) <;> split_ifs <;> simp

theorem checkStations_pin (p : ProbeResults) (m : APIManager)
    (h1 : p.bvg_stations_working = false) (h2 : p.vbb_stations_working = false) :
    (checkStations 1 p m).1.stations_base = m.stations_base ∧
    (checkStations 1 p m).1.stations_name = m.stations_name := by
  unfold checkStations APIManager.handle_failure APIManager.reset_failures
  simp [h1, h2]

theorem checkJourneys_pin (p : ProbeResults) (m : APIManager)
    (h1 : p.bvg_journeys_working = false) (h2 : p.vbb_journeys_working = false) :
    (checkJourneys 1 p m).1.journeys_base = m.journeys_base ∧
    (checkJourneys 1 p m).1.journeys_name = m.journeys_name := by
  unfold checkJourneys APIManager.handle_failure APIManager.reset_failures
  simp [h1, h2]

theorem checkStations_base_cases (T : Nat) (p : ProbeResults) (m : APIManager) :
    (checkStations T p m).1.stations_base = m.stations_base ∨
    (checkStations T p m).1.stations_base = "https://v6.bvg.transport.rest" ∨
    (checkStations T p m).1.stations_base = "https://v6.vbb.transport.rest" := by
  unfold checkStations APIManager.handle_failure APIManager.reset_failures
  split_ifs <;> (try simp) <;> split_ifs <;> simp

theorem checkJourneys_base_cases (T : Nat) (p : ProbeResults) (m : APIManager) :
    (checkJourneys T p m).1.journeys_base = m.journeys_base ∨
    (checkJourneys T p m).1.journeys_base = "https://v6.bvg.transport.rest" ∨
    (checkJourneys T p m).1.journeys_base = "https://v6.vbb.transport.rest" := by
  unfold checkJourneys APIManager.handle_failure APIManager.reset_failures
  split_ifs <;> (try simp) <;> split_ifs <;> simp

theorem cycle_bases_valid (ps : List ProbeResults) (m : APIManager)
    (hs : m.stations_base = "https://v6.bvg.transport.rest" ∨
          m.stations_base = "https://v6.vbb.transport.rest")
    (hj : m.journeys_base = "https://v6.bvg.transport.rest" ∨
          m.journeys_base = "https://v6.vbb.transport.rest") :
    ((ps.foldl (fun acc p => (check_and_update_apis p acc).1) m).stations_base =
        "https://v6.bvg.transport.rest" ∨
     (ps.foldl (fun acc p => (check_and_update_apis p acc).1) m).stations_base =
        "https://v6.vbb.transport.rest") ∧
    ((ps.foldl (fun acc p => (check_and_update_apis p acc).1) m).journeys_base =
        "https://v6.bvg.transport.rest" ∨
     (ps.foldl (fun acc p => (check_and_update_apis p acc).1) m).journeys_base =
        "https://v6.vbb.transport.rest") := by
  induction ps generalizing m with
  | nil => exact ⟨hs, hj⟩
  | cons p rest ih =>
      have hstep_s : (check_and_update_apis p m).1.stations_base =
          "https://v6.bvg.transport.rest" ∨
          (check_and_update_apis p m).1.stations_base =
          "https://v6.vbb.transport.rest" := by
        have heq : (check_and_update_apis p m).1.stations_base =
            (checkStations 1 p m).1.stations_base :=
          (checkJourneys_preserves_stations 1 p (checkStations 1 p m).1).1
        rw [heq]
        rcases checkStations_base_cases 1 p m with h | h | h
        · rw [h]; exact hs
        · exact Or.inl h
        · exact Or.inr h
      have hstep_j : (check_and_update_apis p m).1.journeys_base =
          "https://v6.bvg.transport.rest" ∨
          (check_and_update_apis p m).1.journeys_base =
          "https://v6.vbb.transport.rest" := by
        have heq : (check_and_update_apis p m).1.journeys_base =
            (checkJourneys 1 p (checkStations 1 p m).1).1.journeys_base := rfl
        rw [heq]
        rcases checkJourneys_base_cases 1 p (checkStations 1 p m).1 with h | h | h
        · rw [h, (checkStations_preserves_journeys 1 p m).1]; exact hj
        · exact Or.inl h
        · exact Or.inr h
      exact ih _ hstep_s hstep_j

/-- C5: when both the primary (BVG) and secondary (VBB) probe batteries for a
capability fail, the cycle leaves that capability's active base URL exactly
as it was; the base-URL reads are defined from construction on (the
singleton's `__init__` pins BVG), and after any sequence of cycles the
active URL is always one of the two known endpoints — never a
"no endpoint" state. -/
theorem pin_on_total_failure :
    (∀ (p : ProbeResults) (m : APIManager),
      p.bvg_stations_working = false → p.vbb_stations_working = false →
      (check_and_update_apis p m).1.stations_base = m.stations_base ∧
      (check_and_update_apis p m).1.stations_name = m.stations_name) ∧
    (∀ (p : ProbeResults) (m : APIManager),
      p.bvg_journeys_working = false → p.vbb_journeys_working = false →
      (check_and_update_apis p m).1.journeys_base = m.journeys_base ∧
      (check_and_update_apis p m).1.journeys_name = m.journeys_name) ∧
    (get_current_stations_api_base APIManager.init =
        "https://v6.bvg.transport.rest" ∧
     get_current_journeys_api_base APIManager.init =
        "https://v6.bvg.transport.rest") ∧
    (∀ ps : List ProbeResults,
      (get_current_stations_api_base
          (ps.foldl (fun acc p => (check_and_update_apis p acc).1) APIManager.init) =
            "https://v6.bvg.transport.rest" ∨
       get_current_stations_api_base
          (ps.foldl (fun acc p => (check_and_update_apis p acc).1) APIManager.init) =
            "https://v6.vbb.transport.rest") ∧
      (get_current_journeys_api_base
          (ps.foldl (fun acc p => (check_and_update_apis p acc).1) APIManager.init) =
            "https://v6.bvg.transport.rest" ∨
       get_current_journeys_api_base
          (ps.foldl (fun acc p => (check_and_update_apis p acc).1) APIManager.init) =
            "https://v6.vbb.transport.rest")) := by
  refine ⟨?_, ?_, ⟨rfl, rfl⟩, ?_⟩
  · intro p m h1 h2
    have hpre := checkJourneys_preserves_stations 1 p (checkStations 1 p m).1
    have hpin := checkStations_pin p m h1 h2
    exact ⟨hpre.1.trans hpin.1, hpre.2.trans hpin.2⟩
  · intro p m h1 h2
    have hpin := checkJourneys_pin p (checkStations 1 p m).1 h1 h2
    have hpre := checkStations_preserves_journeys 1 p m
    exact ⟨hpin.1.trans hpre.1, hpin.2.trans hpre.2⟩
  · intro ps
    exact cycle_bases_valid ps APIManager.init (Or.inl rfl) (Or.inl rfl)

theorem pin_on_total_failure_witness :
    (⟨false, false, false, false⟩ : ProbeResults).bvg_stations_working = false ∧
    (check_and_update_apis ⟨false, false, false, false⟩ APIManager.init).1.stations_base =
      APIManager.init.stations_base :=
  ⟨rfl, (pin_on_total_failure.1 ⟨false, false, false, false⟩ APIManager.init rfl rfl).1⟩

theorem checkStations_failcount (T : Nat) (p : ProbeResults) (m : APIManager)
    (h1 : p.bvg_stations_working = false) :
    lookupA (checkStations T p m).1.failure_counts "bvg_stations" =
      some ((lookupA m.failure_counts "bvg_stations").getD 0 + 1) := by
  unfold checkStations APIManager.handle_failure APIManager.reset_failures
  by_cases hth : (lookupA m.failure_counts "bvg_stations").getD 0 + 1 ≥ T
  · by_cases hv : p.vbb_stations_working = true
    · simp [h1, hth, hv, lookupA_setA_ne, lookupA_setA_self]
    · simp [h1, hth, hv, lookupA_setA_self]
  · simp [h1, hth, lookupA_setA_self]

theorem checkStations_probed_iff (T : Nat) (p : ProbeResults) (m : APIManager)
    (h1 : p.bvg_stations_working = false) :
    ((checkStations T p m).2 = true ↔
      (lookupA m.failure_counts "bvg_stations").getD 0 + 1 ≥ T) := by
  unfold checkStations APIManager.handle_failure APIManager.reset_failures
  by_cases hth : (lookupA m.failure_counts "bvg_stations").getD 0 + 1 ≥ T
  · by_cases hv : p.vbb_stations_working = true <;> simp [h1, hth, hv]
  · simp [h1, hth]

theorem checkStations_switch (T : Nat) (p : ProbeResults) (m : APIManager)
    (h1 : p.bvg_stations_working = false) (hv : p.vbb_stations_working = true)
    (hth : (lookupA m.failure_counts "bvg_stations").getD 0 + 1 ≥ T) :
    (checkStations T p m).1.stations_base = "https://v6.vbb.transport.rest" ∧
    (checkStations T p m).1.stations_name = "vbb" ∧
    lookupA (checkStations T p m).1.failure_counts "vbb_stations" = some 0 := by
  unfold checkStations APIManager.handle_failure APIManager.reset_failures
  simp [h1, hth, hv, lookupA_setA_self]

theorem checkStations_primary_ok (T : Nat) (p : ProbeResults) (m : APIManager)
    (hp : p.bvg_stations_working = true) :
    lookupA (checkStations T p m).1.failure_counts "bvg_stations" = some 0 ∧
    (checkStations T p m).1.stations_base = "https://v6.bvg.transport.rest" ∧
    (checkStations T p m).1.stations_name = "bvg" ∧
    (checkStations T p m).2 = false := by
  unfold checkStations APIManager.handle_failure APIManager.reset_failures
  simp [hp, lookupA_setA_self]

theorem checkJourneys_failcount (T : Nat) (p : ProbeResults) (m : APIManager)
    (h1 : p.bvg_journeys_working = false) :
    lookupA (checkJourneys T p m).1.failure_counts "bvg_journeys" =
      some ((lookupA m.failure_counts "bvg_journeys").getD 0 + 1) := by
  unfold checkJourneys APIManager.handle_failure APIManager.reset_failures
  by_cases hth : (lookupA m.failure_counts "bvg_journeys").getD 0 + 1 ≥ T
  · by_cases hv : p.vbb_journeys_working = true
    · simp [h1, hth, hv, lookupA_setA_ne, lookupA_setA_self]
    · simp [h1, hth, hv, lookupA_setA_self]
  · simp [h1, hth, lookupA_setA_self]

theorem checkJourneys_probed_iff (T : Nat) (p : ProbeResults) (m : APIManager)
    (h1 : p.bvg_journeys_working = false) :
    ((checkJourneys T p m).2 = true ↔
      (lookupA m.failure_counts "bvg_journeys").getD 0 + 1 ≥ T) := by
  unfold checkJourneys APIManager.handle_failure APIManager.reset_failures
  by_cases hth : (lookupA m.failure_counts "bvg_journeys").getD 0 + 1 ≥ T
  · by_cases hv : p.vbb_journeys_working = true <;> simp [h1, hth, hv]
  · simp [h1, hth]

theorem checkJourneys_switch (T : Nat) (p : ProbeResults) (m : APIManager)
    (h1 : p.bvg_journeys_working = false) (hv : p.vbb_journeys_working = true)
    (hth : (lookupA m.failure_counts "bvg_journeys").getD 0 + 1 ≥ T) :
    (checkJourneys T p m).1.journeys_base = "https://v6.vbb.transport.rest" ∧
    (checkJourneys T p m).1.journeys_name = "vbb" ∧
    lookupA (checkJourneys T p m).1.failure_counts "vbb_journeys" = some 0 := by
  unfold checkJourneys APIManager.handle_failure APIManager.reset_failures
  simp [h1, hth, hv, lookupA_setA_self]

theorem checkJourneys_primary_ok (T : Nat) (p : ProbeResults) (m : APIManager)
    (hp : p.bvg_journeys_working = true) :
    lookupA (checkJourneys T p m).1.failure_counts "bvg_journeys" = some 0 ∧
    (checkJourneys T p m).1.journeys_base = "https://v6.bvg.transport.rest" ∧
    (checkJourneys T p m).1.journeys_name = "bvg" ∧
    (checkJourneys T p m).2 = false := by
  unfold checkJourneys APIManager.handle_failure APIManager.reset_failures
  simp [hp, lookupA_setA_self]

/-- C6: per capability and for any `handle_failure` threshold `T`: a cycle
with a failing primary increments that capability's consecutive-failure
counter and probes the secondary exactly when the incremented counter has
reached `T`; when the probed secondary passes, the active endpoint switches
to it and the secondary's counter resets; a cycle with a working primary
resets the primary's counter and pins the endpoint to the primary. With the
call sites' default `T = 1`, the full cycle switches (and probes the
secondary) on the very first failed cycle in which the secondary passes. -/
theorem failure_hysteresis :
    (∀ (T : Nat) (p : ProbeResults) (m : APIManager),
      p.bvg_stations_working = false →
      lookupA (checkStations T p m).1.failure_counts "bvg_stations" =
        some ((lookupA m.failure_counts "bvg_stations").getD 0 + 1) ∧
      ((checkStations T p m).2 = true ↔
        (lookupA m.failure_counts "bvg_stations").getD 0 + 1 ≥ T) ∧
      (p.vbb_stations_working = true →
        (lookupA m.failure_counts "bvg_stations").getD 0 + 1 ≥ T →
        (checkStations T p m).1.stations_base = "https://v6.vbb.transport.rest" ∧
        lookupA (checkStations T p m).1.failure_counts "vbb_stations" = some 0)) ∧
    (∀ (T : Nat) (p : ProbeResults) (m : APIManager),
      p.bvg_stations_working = true →
      lookupA (checkStations T p m).1.failure_counts "bvg_stations" = some 0 ∧
      (checkStations T p m).1.stations_base = "https://v6.bvg.transport.rest" ∧
      (checkStations T p m).2 = false) ∧
    (∀ (T : Nat) (p : ProbeResults) (m : APIManager),
      p.bvg_journeys_working = false →
      lookupA (checkJourneys T p m).1.failure_counts "bvg_journeys" =
        some ((lookupA m.failure_counts "bvg_journeys").getD 0 + 1) ∧
      ((checkJourneys T p m).2 = true ↔
        (lookupA m.failure_counts "bvg_journeys").getD 0 + 1 ≥ T) ∧
      (p.vbb_journeys_working = true →
        (lookupA m.failure_counts "bvg_journeys").getD 0 + 1 ≥ T →
        (checkJourneys T p m).1.journeys_base = "https://v6.vbb.transport.rest" ∧
        lookupA (checkJourneys T p m).1.failure_counts "vbb_journeys" = some 0)) ∧
    (∀ (T : Nat) (p : ProbeResults) (m : APIManager),
      p.bvg_journeys_working = true →
      lookupA (checkJourneys T p m).1.failure_counts "bvg_journeys" = some 0 ∧
      (checkJourneys T p m).1.journeys_base = "https://v6.bvg.transport.rest" ∧
      (checkJourneys T p m).2 = false) ∧
    (∀ (p : ProbeResults) (m : APIManager),
      p.bvg_stations_working = false → p.vbb_stations_working = true →
      (check_and_update_apis p m).1.stations_base = "https://v6.vbb.transport.rest" ∧
      (check_and_update_apis p m).2.vbb_stations_probed = true) := by
  refine ⟨?_, ?_, ?_, ?_, ?_⟩
  · intro T p m h1
    exact ⟨checkStations_failcount T p m h1, checkStations_probed_iff T p m h1,
      fun hv hth => ⟨(checkStations_switch T p m h1 hv hth).1,
        (checkStations_switch T p m h1 hv hth).2.2⟩⟩
  · intro T p m hp
    exact ⟨(checkStations_primary_ok T p m hp).1,
      (checkStations_primary_ok T p m hp).2.1,
      (checkStations_primary_ok T p m hp).2.2.2⟩
  · intro T p m h1
    exact ⟨checkJourneys_failcount T p m h1, checkJourneys_probed_iff T p m h1,
      fun hv hth => ⟨(checkJourneys_switch T p m h1 hv hth).1,
        (checkJourneys_switch T p m h1 hv hth).2.2⟩⟩
  · intro T p m hp
    exact ⟨(checkJourneys_primary_ok T p m hp).1,
      (checkJourneys_primary_ok T p m hp).2.1,
      (checkJourneys_primary_ok T p m hp).2.2.2⟩
  · intro p m h1 hv
    have hth : (lookupA m.failure_counts "bvg_stations").getD 0 + 1 ≥ 1 := by omega
    constructor
    · have heq : (check_and_update_apis p m).1.stations_base =
          (checkStations 1 p m).1.stations_base :=
        (checkJourneys_preserves_stations 1 p (checkStations 1 p m).1).1
      rw [heq]
      exact (checkStations_switch 1 p m h1 hv hth).1
    · show (checkStations 1 p m).2 = true
      exact (checkStations_probed_iff 1 p m h1).2 hth

theorem failure_hysteresis_witness :
    (⟨false, true, false, true⟩ : ProbeResults).bvg_stations_working = false ∧
    ((checkStations 2 ⟨false, true, false, true⟩ APIManager.init).2 = true ↔
      (lookupA APIManager.init.failure_counts "bvg_stations").getD 0 + 1 ≥ 2) ∧
    (check_and_update_apis ⟨false, true, false, true⟩ APIManager.init).1.stations_base =
      "https://v6.vbb.transport.rest" :=
  ⟨rfl,
   (failure_hysteresis.1 2 ⟨false, true, false, true⟩ APIManager.init rfl).2.1,
   (failure_hysteresis.2.2.2.2 ⟨false, true, false, true⟩ APIManager.init rfl rfl).1⟩

/-! Helper facts about the statistics rounding -/

theorem pyRoundInt_intCast (n : ℤ) : pyRoundInt (n : ℚ) = n := by
  unfold pyRoundInt
  rw [if_neg (by rw [Int.floor_intCast]; norm_num)]
  exact round_intCast n

theorem pyRound2_of_mul_eq_int (q : ℚ) (n : ℤ) (h : q * 100 = n) :
    pyRound2 q = q := by
  unfold pyRound2
  rw [h, pyRoundInt_intCast, ← h]
  field_simp

theorem pyRound2_zero : pyRound2 0 = 0 := by
  norm_num [pyRound2, pyRoundInt, round_eq]

theorem get_stats_hit_rate_cases {α : Type} (c : SimpleCache α) :
    (c.hits + c.misses > 0 →
      c.get_stats.hit_rate_percent =
        pyRound2 (100 * (c.hits : ℚ) / ((c.hits : ℚ) + (c.misses : ℚ)))) ∧
    (c.hits + c.misses = 0 → c.get_stats.hit_rate_percent = 0) ∧
    (∀ n : ℤ,
      100 * (c.hits : ℚ) / ((c.hits : ℚ) + (c.misses : ℚ)) * 100 = (n : ℚ) →
      c.get_stats.hit_rate_percent =
        100 * (c.hits : ℚ) / ((c.hits : ℚ) + (c.misses : ℚ))) := by
  have hform : (c.hits : ℚ) / ((c.hits + c.misses : ℕ) : ℚ) * 100 =
      100 * (c.hits : ℚ) / ((c.hits : ℚ) + (c.misses : ℚ)) := by
    push_cast
    ring
  have hpos_case : c.hits + c.misses > 0 →
      c.get_stats.hit_rate_percent =
        pyRound2 (100 * (c.hits : ℚ) / ((c.hits : ℚ) + (c.misses : ℚ))) := by
    intro hpos
    simp only [SimpleCache.get_stats]
    rw [if_pos hpos, hform]
  refine ⟨hpos_case, ?_, ?_⟩
  · intro h0
    simp only [SimpleCache.get_stats]
    rw [if_neg (by omega)]
    exact pyRound2_zero
  · intro n hn
    by_cases hpos : c.hits + c.misses > 0
    · rw [hpos_case hpos]
      exact pyRound2_of_mul_eq_int _ n hn
    · have hh : c.hits = 0 := by omega
      have hm : c.misses = 0 := by omega
      simp only [SimpleCache.get_stats]
      rw [if_neg hpos, hh, hm]
      norm_num
      exact pyRound2_zero.symm ▸ pyRound2_zero

/-- C8 counterexample: the state reached by set(a); get(a) hit; get(b),
get(c) misses has H = 1, M = 2, and `get_stats` reports
`round(100/3, 2) = 33.33`, which is not exactly `100*H/(H+M) = 100/3`. -/
theorem hit_rate_rounding_counterexample :
    (applyOps (SimpleCache.init ℕ 10 100)
      [Op.set "a" 1 0, Op.get "a" 1, Op.get "b" 1, Op.get "c" 1]).hits = 1 ∧
    (applyOps (SimpleCache.init ℕ 10 100)
      [Op.set "a" 1 0, Op.get "a" 1, Op.get "b" 1, Op.get "c" 1]).misses = 2 ∧
    (applyOps (SimpleCache.init ℕ 10 100)
      [Op.set "a" 1 0, Op.get "a" 1, Op.get "b" 1, Op.get "c" 1]).get_stats.hit_rate_percent =
      3333 / 100 ∧
    (3333 / 100 : ℚ) ≠ 100 * 1 / (1 + 2) := by
  have h1 : (applyOps (SimpleCache.init ℕ 10 100)
      [Op.set "a" 1 0, Op.get "a" 1, Op.get "b" 1, Op.get "c" 1]).hits = 1 := by
    decide
  have h2 : (applyOps (SimpleCache.init ℕ 10 100)
      [Op.set "a" 1 0, Op.get "a" 1, Op.get "b" 1, Op.get "c" 1]).misses = 2 := by
    decide
  refine ⟨h1, h2, ?_, by norm_num⟩
  simp only [SimpleCache.get_stats, h1, h2]
  norm_num [pyRound2, pyRoundInt, round_eq]

/-- C8 amended: for every reachable cache state with H hits and M misses,
`stats().hit_rate_percent` equals `100*H/(H+M)` *rounded half-to-even at two
decimal places* when H+M > 0 (hence exactly `100*H/(H+M)` whenever that
value has at most two decimal places), and 0 when H+M = 0. -/
theorem hit_rate_reported :
    ∀ (α : Type) (max_size ttl : Nat) (ops : List (Op α)),
      (let c := applyOps (SimpleCache.init α max_size ttl) ops
       (c.hits + c.misses > 0 →
         c.get_stats.hit_rate_percent =
           pyRound2 (100 * (c.hits : ℚ) / ((c.hits : ℚ) + (c.misses : ℚ)))) ∧
       (c.hits + c.misses = 0 → c.get_stats.hit_rate_percent = 0) ∧
       (∀ n : ℤ,
         100 * (c.hits : ℚ) / ((c.hits : ℚ) + (c.misses : ℚ)) * 100 = (n : ℚ) →
         c.get_stats.hit_rate_percent =
           100 * (c.hits : ℚ) / ((c.hits : ℚ) + (c.misses : ℚ)))) :=
  fun α max_size ttl ops =>
    get_stats_hit_rate_cases (applyOps (SimpleCache.init α max_size ttl) ops)

theorem hit_rate_reported_witness :
    (applyOps (SimpleCache.init ℕ 10 100)
        [Op.set "a" 1 0, Op.get "a" 1, Op.get "b" 1]).hits +
      (applyOps (SimpleCache.init ℕ 10 100)
        [Op.set "a" 1 0, Op.get "a" 1, Op.get "b" 1]).misses > 0 ∧
    (applyOps (SimpleCache.init ℕ 10 100)
        [Op.set "a" 1 0, Op.get "a" 1, Op.get "b" 1]).get_stats.hit_rate_percent =
      pyRound2 (100 * ((applyOps (SimpleCache.init ℕ 10 100)
          [Op.set "a" 1 0, Op.get "a" 1, Op.get "b" 1]).hits : ℚ) /
        (((applyOps (SimpleCache.init ℕ 10 100)
          [Op.set "a" 1 0, Op.get "a" 1, Op.get "b" 1]).hits : ℚ) +
         ((applyOps (SimpleCache.init ℕ 10 100)
          [Op.set "a" 1 0, Op.get "a" 1, Op.get "b" 1]).misses : ℚ))) :=
  ⟨by decide,
   (hit_rate_reported ℕ 10 100 [Op.set "a" 1 0, Op.get "a" 1, Op.get "b" 1]).1
     (by decide)⟩

end MobilityAgg
